import Mathlib

/-!
# Verification of the just-jury eligibility-and-composition engine

Shallow embedding of the core functions of `src/lib/jury-utils.ts`
(exposed in the repository via `src/app/(dashboard)/layout.tsx`):
date arithmetic, participation history, consecutive-participation
counter, availability evaluator, candidate filter and sort, the
composition allocator and the workload aggregator.

Modelling conventions, chosen to mirror the JavaScript semantics of the
source:

* Date strings are parsed by `parseDate` into a day number with epoch
  1970-01-01 (the sign and scale of JavaScript `Date.getTime()`, in days
  instead of milliseconds: a strictly monotone rescaling, so every
  comparison and every equality of time values is preserved).  An
  unparseable string yields `none`, the model of the JavaScript `NaN`
  produced by `new Date(bad).getTime()`.  The engine only ever feeds
  ISO `YYYY-MM-DD` strings to `new Date`, so the model parses exactly
  that shape and validates the calendar date the way the JavaScript
  engine does (month 1–12, day bounded by the month length, leap years).
* A JavaScript number that may be `NaN` is modelled as an `Option`;
  every comparison with `NaN` is `false` and arithmetic propagates it,
  which the helpers `jsLtNat`, `jsGtNat30` and `jsAddNat` encode.
* TypeScript `string | null` fields are `Option String`; the optional
  `reason` field is `Option String`.
* Numbers produced by `parseFloat` (rating, distance) are rationals;
  numbers produced by `parseInt` (ids, counters) are integers.  Counts
  computed by the engine itself are naturals.
* `Array.prototype.sort` is a stable sort driven by a user comparator;
  it is modelled by the stable insertion sort `stableSort lt`, where
  `lt a b` holds exactly when the source comparator returns a negative
  number on `(a, b)`; a `NaN` comparator value (possible only for
  unparseable dates) compares as a tie, which a stable sort leaves in
  input order.
* `localeCompare` on display names is modelled as code-point comparison
  of the strings; only its sign and its ties are ever consumed.
-/

namespace JustJury

/-! ## Date arithmetic (`daysBetween` and the `new Date` parser) -/

def isLeapYear (y : Nat) : Bool :=
  (y % 4 == 0 && y % 100 != 0) || (y % 400 == 0)

def daysInMonth (y m : Nat) : Nat :=
  match m with
  | 1 => 31 | 2 => if isLeapYear y then 29 else 28 | 3 => 31
  | 4 => 30 | 5 => 31 | 6 => 30 | 7 => 31 | 8 => 31
  | 9 => 30 | 10 => 31 | 11 => 30 | 12 => 31
  | _ => 0

/-- Days occupied by the months strictly before month `m` in a non-leap
year. -/
def monthPrefixDays (m : Nat) : Nat :=
  match m with
  | 1 => 0 | 2 => 31 | 3 => 59 | 4 => 90 | 5 => 120 | 6 => 151
  | 7 => 181 | 8 => 212 | 9 => 243 | 10 => 273 | 11 => 304 | 12 => 334
  | _ => 0

/-- Number of leap years in `[0, y)` of the proleptic Gregorian
calendar (year 0 is a leap year). -/
def leapDaysBefore (y : Nat) : Nat :=
  match y with
  | 0 => 0
  | n + 1 => n / 4 - n / 100 + n / 400 + 1

/-- Day number of the civil date `y-m-d` with epoch 1970-01-01, the day
analogue of JavaScript `Date.getTime()` (719528 days separate
0000-01-01 from 1970-01-01). -/
def toEpochDay (y m d : Nat) : Int :=
  ((365 * y + leapDaysBefore y + monthPrefixDays m
      + (if 2 < m && isLeapYear y then 1 else 0) + (d - 1) : Nat) : Int)
    - 719528

/-- Split a character list into the groups separated by `'-'`. -/
def splitOnDash : List Char → List (List Char)
  | [] => [[]]
  | c :: cs =>
    if c = '-' then [] :: splitOnDash cs
    else
      match splitOnDash cs with
      | [] => [[c]]
      | g :: gs => (c :: g) :: gs

/-- Value of a list of decimal digit characters, `none` when the list is
empty or holds a non-digit. -/
def digitsVal (cs : List Char) : Option Nat :=
  if cs ≠ [] ∧ cs.all (·.isDigit) then
    some (cs.foldl (fun a c => 10 * a + (c.toNat - 48)) 0)
  else none

/-- The `YYYY-MM-DD` parse of `new Date(s)`: the year, month and day
when `s` is a well-formed ISO calendar date, `none` (an Invalid Date)
otherwise. -/
def parseYMD (s : String) : Option (Nat × Nat × Nat) :=
  match splitOnDash s.data with
  | [ys, ms, ds] =>
    if ys.length == 4 && ms.length == 2 && ds.length == 2 then
      match digitsVal ys, digitsVal ms, digitsVal ds with
      | some y, some m, some d =>
        if 1 ≤ m ∧ m ≤ 12 ∧ 1 ≤ d ∧ d ≤ daysInMonth y m then
          some (y, m, d)
        else none
      | _, _, _ => none
    else none
  | _ => none

/-- `new Date(s).getTime()` rescaled to days: `none` models the `NaN` of
an Invalid Date. -/
def parseDate (s : String) : Option Int :=
  (parseYMD s).map fun t => toEpochDay t.1 t.2.1 t.2.2

/-- `new Date(s).getFullYear()`: `none` models the `NaN` of an Invalid
Date. -/
def yearOf (s : String) : Option Nat :=
  (parseYMD s).map fun t => t.1

/-- `daysBetween(date1, date2)` from the source:
`Math.ceil(Math.abs(d2.getTime() - d1.getTime()) / 86400000)`.
Both parsed times are UTC midnights, so the quotient is exact and the
ceiling is the absolute day difference; `none` models the `NaN`
produced when either date is invalid. -/
def daysBetween (date1 date2 : String) : Option Nat :=
  match parseDate date1, parseDate date2 with
  | some d1, some d2 => some (d2 - d1).natAbs
  | _, _ => none

/-- JavaScript `x < m` where `x` may be `NaN`: every comparison with
`NaN` is false. -/
def jsLtNat (x : Option Nat) (m : Nat) : Bool :=
  match x with
  | some d => d < m
  | none => false

/-- JavaScript `x > 30` where `x` may be `NaN`. -/
def jsGtNat30 (x : Option Nat) : Bool :=
  match x with
  | some d => 30 < d
  | none => false

/-- JavaScript addition with `NaN` propagation. -/
def jsAddNat : Option Nat → Option Nat → Option Nat
  | some a, some b => some (a + b)
  | _, _ => none

/-! ## Data model (`types/types.ts`, as constructed by the CSV parser
in the source and described by the spec's §3) -/

/-- `Professor`: id and count from `parseInt`, science and km from
`parseFloat`, title one of `"професор"`/`"доцент"`, the two optional
dates as `string | null`. -/
structure Professor where
  id : Int
  title : String
  names : String
  science : ℚ
  university : String
  km : ℚ
  count : Int
  preLastDate : Option String
  lastDate : Option String
deriving DecidableEq

/-- `Procedure`: a calendar date string, a type string, and up to seven
optional member-id slots (`null` = unused). -/
structure Procedure where
  id : Int
  date : String
  procedure : String
  m1 : Option Int
  m2 : Option Int
  m3 : Option Int
  m4 : Option Int
  m5 : Option Int
  m6 : Option Int
  m7 : Option Int
deriving DecidableEq

structure JuryRequirements where
  professorCount : Nat
  associateProfessorCount : Nat
  maxConsecutiveParticipations : Nat
  minDaysBetweenParticipations : Nat
  maxDistanceForExternal : ℚ
deriving DecidableEq

structure ProfessorAvailability where
  professor : Professor
  isAvailable : Bool
  reason : Option String
  lastParticipationDate : Option String
  consecutiveCount : Nat
deriving DecidableEq

structure JuryComposition where
  professors : List Professor
  associateProfessors : List Professor
  externalMembers : List Professor
  internalMembers : List Professor
  allMembers : List Professor
  errors : List String
  warnings : List String
deriving DecidableEq

/-- `ProfessorFilter`: every criterion independently optional. -/
structure ProfessorFilter where
  title : Option String
  university : Option String
  minScienceRating : Option ℚ
  maxScienceRating : Option ℚ
  maxDistance : Option ℚ
  excludeIds : Option (List Int)
deriving DecidableEq

/-! ## Stable sorting (`Array.prototype.sort` with a comparator)

`stableSort lt` is the stable sort whose strict order is `lt`:
an element moves before an earlier-input element exactly when the
comparator orders it strictly first.  This is the observable behaviour
of the (stable, per ES2019) JavaScript sort for a consistent
comparator, and a defensible stable resolution of the `NaN` ties the
comparator can produce on unparseable dates. -/

def stableInsert (lt : α → α → Bool) (x : α) : List α → List α
  | [] => [x]
  | y :: ys => if lt y x then y :: stableInsert lt x ys else x :: y :: ys

def stableSort (lt : α → α → Bool) : List α → List α
  | [] => []
  | x :: xs => stableInsert lt x (stableSort lt xs)

/-! ## Participation history and consecutive-participation counter -/

/-- The member-slot test of the source's history filter:
`proc.m1 === id || … || proc.m7 === id` (a `null` slot never equals a
professor id). -/
def isParticipant (id : Int) (proc : Procedure) : Bool :=
  proc.m1 == some id || proc.m2 == some id || proc.m3 == some id ||
  proc.m4 == some id || proc.m5 == some id || proc.m6 == some id ||
  proc.m7 == some id

/-- Comparator of the history sort:
`new Date(a.date).getTime() - new Date(b.date).getTime() < 0`; an
Invalid Date makes the difference `NaN`, which compares as a tie. -/
def procDateLt (a b : Procedure) : Bool :=
  match parseDate a.date, parseDate b.date with
  | some x, some y => x < y
  | _, _ => false

/-- `getProfessorParticipationHistory`: procedures whose member slots
contain the professor's id, stably sorted ascending by date. -/
def getProfessorParticipationHistory (professor : Professor)
    (procedures : List Procedure) : List Procedure :=
  stableSort procDateLt (procedures.filter (isParticipant professor.id))

/-- Placeholder used only to give `List.getD` a default; the loop of
`calculateConsecutiveParticipations` never reads out of bounds. -/
def emptyProcedure : Procedure :=
  ⟨0, "", "", none, none, none, none, none, none, none⟩

/-- The `for (let i = participations.length - 1; i > 0; i--)` loop of
`calculateConsecutiveParticipations`, as the number of iterations it
completes before `break`: iteration `i` compares entries `i - 1` and
`i` and breaks when their gap exceeds the fixed 30-day threshold (a
`NaN` gap is not `> 30`, so it does not break the chain). -/
def consecSteps (parts : List Procedure) : Nat → Nat
  | 0 => 0
  | i + 1 =>
    if jsGtNat30 (daysBetween (parts.getD i emptyProcedure).date
        (parts.getD (i + 1) emptyProcedure).date) then 0
    else 1 + consecSteps parts i

/-- `calculateConsecutiveParticipations`: 0 on an empty history,
otherwise `1 +` the completed iterations of the backward walk.  The
30-day threshold is the literal constant of the source; the function
does not take `JuryRequirements` at all, so it cannot depend on
`minDaysBetweenParticipations`. -/
def calculateConsecutiveParticipations (professor : Professor)
    (procedures : List Procedure) : Nat :=
  let participations := getProfessorParticipationHistory professor procedures
  if participations.length == 0 then 0
  else 1 + consecSteps participations (participations.length - 1)

/-! ## Availability rule evaluator -/

def cooldownMsg (gap minDays : Nat) : String :=
  "Last participation was " ++ (toString gap ++
    (" days ago (minimum: " ++ (toString minDays ++ ")")))

def streakMsg (streak cap : Nat) : String :=
  "Maximum consecutive participations reached (" ++ (toString streak ++
    ("/" ++ (toString cap ++ ")")))

/-- `isProfessorAvailable`.  The source checks the cooldown first
(`lastDate` present and `daysBetween(lastDate, targetDate) <
minDaysBetweenParticipations`, a comparison that is false on `NaN`),
returning `consecutiveCount: 0` in that rejection; otherwise it
computes the streak and applies the consecutive-participation cap.
The parser never produces an empty-string date, so JavaScript
truthiness of `lastDate` is presence of the value. -/
def isProfessorAvailable (professor : Professor) (targetDate : String)
    (requirements : JuryRequirements) (procedures : List Procedure) :
    ProfessorAvailability :=
  let lastDate := professor.lastDate
  let streakCheck : ProfessorAvailability :=
    let consecutiveCount := calculateConsecutiveParticipations professor procedures
    if requirements.maxConsecutiveParticipations ≤ consecutiveCount then
      { professor := professor, isAvailable := false,
        reason := some (streakMsg consecutiveCount
          requirements.maxConsecutiveParticipations),
        lastParticipationDate := lastDate,
        consecutiveCount := consecutiveCount }
    else
      { professor := professor, isAvailable := true, reason := none,
        lastParticipationDate := lastDate,
        consecutiveCount := consecutiveCount }
  match lastDate with
  | none => streakCheck
  | some d =>
    match daysBetween d targetDate with
    | none => streakCheck
    | some gap =>
      if gap < requirements.minDaysBetweenParticipations then
        { professor := professor, isAvailable := false,
          reason := some (cooldownMsg gap
            requirements.minDaysBetweenParticipations),
          lastParticipationDate := some d,
          consecutiveCount := 0 }
      else streakCheck

/-- Whether the cooldown rule of `isProfessorAvailable` fires. -/
def cooldownFires (professor : Professor) (targetDate : String)
    (requirements : JuryRequirements) : Bool :=
  match professor.lastDate with
  | some d => jsLtNat (daysBetween d targetDate)
      requirements.minDaysBetweenParticipations
  | none => false

/-! ## Candidate filter and the availability map -/

/-- `getAvailableProfessors`: the conjunctive optional filters followed
by the per-professor availability evaluation.  The two string criteria
sit behind JavaScript truthiness (`if (filter.title)`), so an empty
string disables them; the numeric criteria are guarded by
`!== undefined`; a present `excludeIds` array is always truthy. -/
def getAvailableProfessors (professors : List Professor)
    (targetDate : String) (requirements : JuryRequirements)
    (procedures : List Procedure) (filter : Option ProfessorFilter) :
    List ProfessorAvailability :=
  let filteredProfessors :=
    match filter with
    | none => professors
    | some f =>
      let l1 := match f.title with
        | some ttl =>
          if ttl == "" then professors
          else professors.filter (fun p => p.title == ttl)
        | none => professors
      let l2 := match f.university with
        | some u => if u == "" then l1 else l1.filter (fun p => p.university == u)
        | none => l1
      let l3 := match f.minScienceRating with
        | some r => l2.filter (fun p : Professor => decide (r ≤ p.science))
        | none => l2
      let l4 := match f.maxScienceRating with
        | some r => l3.filter (fun p : Professor => decide (p.science ≤ r))
        | none => l3
      let l5 := match f.maxDistance with
        | some r => l4.filter (fun p : Professor => decide (p.km ≤ r))
        | none => l4
      let l6 := match f.excludeIds with
        | some ids => l5.filter (fun p : Professor => !(ids.contains p.id))
        | none => l5
      l6
  filteredProfessors.map fun professor =>
    isProfessorAvailable professor targetDate requirements procedures

/-! ## Sorting professors (`sortProfessors`) -/

inductive ProfessorSortCriteria where
  | distance
  | lastParticipation
  | participationCount
  | scienceRating
  | name
deriving DecidableEq

/-- The five comparator keys.  A missing `lastDate` is keyed `0` (the
JavaScript epoch); a present but unparseable one is keyed `NaN`. -/
inductive SortKey where
  | num : ℚ → SortKey
  | date : Option Int → SortKey
  | str : String → SortKey
deriving DecidableEq

def lastDateKey (p : Professor) : Option Int :=
  match p.lastDate with
  | none => some 0
  | some s => parseDate s

def sortKey : ProfessorSortCriteria → Professor → SortKey
  | .distance, p => .num p.km
  | .lastParticipation, p => .date (lastDateKey p)
  | .participationCount, p => .num (p.count : ℚ)
  | .scienceRating, p => .num p.science
  | .name, p => .str p.names

/-- `comparison < 0` for the source comparator on two keys; a `NaN`
date key compares as a tie. -/
def keyLt : SortKey → SortKey → Bool
  | .num a, .num b => a < b
  | .date (some a), .date (some b) => a < b
  | .str a, .str b => a < b
  | _, _ => false

/-- The comparator's strict order as used by the sort: the plain sign
for `ascending = true`, the negated comparator's sign for
`ascending = false`. -/
def profBefore (criteria : ProfessorSortCriteria) (ascending : Bool)
    (a b : Professor) : Bool :=
  if ascending then keyLt (sortKey criteria a) (sortKey criteria b)
  else keyLt (sortKey criteria b) (sortKey criteria a)

/-- `sortProfessors`: a stable sort of a copy of the input by the
chosen criterion; `ascending = false` negates the comparator, not the
output. -/
def sortProfessors (professors : List Professor)
    (criteria : ProfessorSortCriteria) (ascending : Bool) :
    List Professor :=
  stableSort (profBefore criteria ascending) professors

/-! ## Composition allocator (`createJuryComposition`) -/

def insufficientProfessorsMsg (got need : Nat) : String :=
  "Insufficient professors available: " ++ (toString got ++
    ("/" ++ toString need))

def insufficientAssociateProfessorsMsg (got need : Nat) : String :=
  "Insufficient associate professors available: " ++ (toString got ++
    ("/" ++ toString need))

def distantExternalMsg (n : Nat) (maxDistance : ℚ) : String :=
  toString n ++ (" external members exceed maximum distance (" ++
    (toString maxDistance ++ "km)"))

/-- Steps 2–6 of the allocator, applied to the eligible pool: partition
by rank, report shortfalls, select closest-first up to quota,
concatenate, split internal/external, and warn about distant external
members. -/
def composeFromPool (pool : List Professor)
    (requirements : JuryRequirements) (homeUniversity : String) :
    JuryComposition :=
  let professorsList := pool.filter (fun p => p.title == "професор")
  let associateProfessorsList := pool.filter (fun p => p.title == "доцент")
  let errors :=
    (if professorsList.length < requirements.professorCount then
      [insufficientProfessorsMsg professorsList.length
        requirements.professorCount]
    else []) ++
    (if associateProfessorsList.length < requirements.associateProfessorCount then
      [insufficientAssociateProfessorsMsg associateProfessorsList.length
        requirements.associateProfessorCount]
    else [])
  let selectedProfessors :=
    (sortProfessors professorsList .distance true).take
      requirements.professorCount
  let selectedAssociateProfessors :=
    (sortProfessors associateProfessorsList .distance true).take
      requirements.associateProfessorCount
  let allMembers := selectedProfessors ++ selectedAssociateProfessors
  let internalMembers := allMembers.filter (fun p => p.university == homeUniversity)
  let externalMembers := allMembers.filter (fun p => p.university != homeUniversity)
  let distantExternalMembers :=
    externalMembers.filter (fun p => decide (requirements.maxDistanceForExternal < p.km))
  let warnings :=
    if 0 < distantExternalMembers.length then
      [distantExternalMsg distantExternalMembers.length
        requirements.maxDistanceForExternal]
    else []
  { professors := selectedProfessors,
    associateProfessors := selectedAssociateProfessors,
    externalMembers := externalMembers,
    internalMembers := internalMembers,
    allMembers := allMembers,
    errors := errors,
    warnings := warnings }

/-- `createJuryComposition`: evaluate availability for every professor
(no extra filter), keep the available ones, and run the allocator on
that pool. -/
def createJuryComposition (professors : List Professor)
    (procedures : List Procedure) (targetDate : String)
    (requirements : JuryRequirements) (homeUniversity : String) :
    JuryComposition :=
  let availableProfessors :=
    ((getAvailableProfessors professors targetDate requirements procedures
        none).filter (fun av => av.isAvailable)).map (fun av => av.professor)
  composeFromPool availableProfessors requirements homeUniversity

/-! ## Workload aggregator (`calculateProfessorWorkload`) -/

structure ProfessorWorkload where
  totalParticipations : Nat
  participationsThisYear : Nat
  averageDaysBetweenParticipations : Option ℚ
  lastParticipationDate : Option String
deriving DecidableEq

/-- JavaScript truthiness of the optional `year` argument: absent,
and the number `0`, are falsy. -/
def jsTruthyYear : Option Nat → Bool
  | some y => y != 0
  | none => false

/-- The index-skipping `reduce` of the source, as the `NaN`-propagating
sum of the day gaps of adjacent history entries. -/
def adjacentGapSum : List Procedure → Option Nat
  | [] => some 0
  | [_] => some 0
  | a :: b :: rest => jsAddNat (daysBetween a.date b.date)
      (adjacentGapSum (b :: rest))

/-- `calculateProfessorWorkload`: history length, the year-restricted
count behind the truthiness test `if (year)`, the average adjacent gap
(0 for histories shorter than 2), and the last history date. -/
def calculateProfessorWorkload (professor : Professor)
    (procedures : List Procedure) (year : Option Nat) :
    ProfessorWorkload :=
  let history := getProfessorParticipationHistory professor procedures
  let participationsThisYear :=
    if jsTruthyYear year then
      (history.filter (fun proc => yearOf proc.date == year)).length
    else history.length
  let averageDaysBetween : Option ℚ :=
    if 1 < history.length then
      (adjacentGapSum history).map
        (fun total => (total : ℚ) / ((history.length : ℚ) - 1))
    else some 0
  { totalParticipations := history.length,
    participationsThisYear := participationsThisYear,
    averageDaysBetweenParticipations := averageDaysBetween,
    lastParticipationDate :=
      if 0 < history.length then
        some ((history.getD (history.length - 1) emptyProcedure).date)
      else none }

/-! ## Specification-side definitions used to state the claims -/

/-- The streak described by the spec: walking a most-recent-first
history, count 1 for the newest entry and one more for each adjacent
pair whose day gap stays within the fixed 30-day threshold, stopping at
the first larger gap. -/
def recentChainLength : List Procedure → Nat
  | [] => 0
  | [_] => 1
  | a :: b :: rest =>
    if jsGtNat30 (daysBetween b.date a.date) then 1
    else 1 + recentChainLength (b :: rest)

/-- `sub` occurs contiguously inside `s`. -/
def strContains (s sub : String) : Prop :=
  sub.data <:+: s.data

instance (s sub : String) : Decidable (strContains s sub) :=
  List.decidableInfix sub.data s.data

/-- Erase the lifetime participation counter (the field claim C8 says
the engine never reads). -/
def scrubCount (p : Professor) : Professor :=
  { p with count := 0 }

/-! ## Concrete fixtures used by witnesses and counterexamples -/

/-- The default requirements `{3, 2, 3, 30, 100}` of the spec's §3. -/
def DEFAULT_JURY_REQUIREMENTS : JuryRequirements := ⟨3, 2, 3, 30, 100⟩

/-- A professor-rank candidate whose last participation was on
2023-06-20 (the spec's concrete cooldown scenario). -/
def profRecent : Professor :=
  ⟨1, "професор", "Иван Петров", 47/10, "Софийски университет", 0, 5,
    some "2023-01-15", some "2023-06-20"⟩

/-- A professor-rank candidate with no participation history. -/
def profFresh : Professor :=
  ⟨2, "професор", "Георги Иванов", 46/10, "Софийски университет", 10, 0,
    none, none⟩

/-- A procedure on 2023-06-20 in which professor 1 served. -/
def procJune : Procedure :=
  ⟨1, "2023-06-20", "доктор", some 1, none, none, none, none, none, none⟩

/-- A procedure on 2023-05-25 in which professor 1 served (26 days
before `procJune`, inside the 30-day chain threshold). -/
def procMay : Procedure :=
  ⟨2, "2023-05-25", "доцент", some 1, none, none, none, none, none, none⟩

/-! ## List and sorting lemmas -/

theorem length_stableInsert (lt : α → α → Bool) (x : α) :
    ∀ l : List α, (stableInsert lt x l).length = l.length + 1 := by
  intro l
  induction l with
  | nil => rfl
  | cons y ys ih =>
    by_cases h : lt y x = true <;> simp [stableInsert, h, ih]

theorem length_stableSort (lt : α → α → Bool) :
    ∀ l : List α, (stableSort lt l).length = l.length := by
  intro l
  induction l with
  | nil => rfl
  | cons x xs ih => simp [stableSort, length_stableInsert, ih]

theorem filter_stableInsert_pos (P : α → Bool) (lt : α → α → Bool)
    (x : α) (hx : P x = true) :
    ∀ l : List α, (∀ y ∈ l, P y = true → lt y x = false) →
      (stableInsert lt x l).filter P = x :: l.filter P := by
  intro l
  induction l with
  | nil => intro _; simp [stableInsert, hx]
  | cons y ys ih =>
    intro h
    by_cases hy : lt y x = true
    · have hPy : P y = false := by
        by_contra hc
        have := h y (by simp) (by simpa using hc)
        simp [this] at hy
      simp [stableInsert, hy, hPy,
        ih fun z hz => h z (List.mem_cons_of_mem _ hz)]
    · simp only [Bool.not_eq_true] at hy
      simp [stableInsert, hy, hx]

theorem filter_stableInsert_neg (P : α → Bool) (lt : α → α → Bool)
    (x : α) (hx : P x = false) :
    ∀ l : List α, (stableInsert lt x l).filter P = l.filter P := by
  intro l
  induction l with
  | nil => simp [stableInsert, hx]
  | cons y ys ih =>
    by_cases hy : lt y x = true
    · simp [stableInsert, hy, List.filter_cons, ih]
    · simp only [Bool.not_eq_true] at hy
      simp [stableInsert, hy, hx]

/-- Stability of `stableSort` stated on tie groups: when the strict
order never separates elements of equal key, filtering the sorted list
to one key value returns those elements in input order. -/
theorem stableSort_filter_key {κ : Type} [DecidableEq κ] (key : α → κ)
    (lt : α → α → Bool) (hirr : ∀ a b, key a = key b → lt a b = false)
    (k : κ) :
    ∀ l : List α,
      (stableSort lt l).filter (fun a => decide (key a = k))
        = l.filter (fun a => decide (key a = k)) := by
  intro l
  induction l with
  | nil => rfl
  | cons x xs ih =>
    by_cases hx : key x = k
    · have : (stableSort lt (x :: xs)).filter (fun a => decide (key a = k))
          = x :: (stableSort lt xs).filter (fun a => decide (key a = k)) := by
        refine filter_stableInsert_pos _ lt x (by simp [hx]) _ ?_
        intro y _ hy
        exact hirr y x (by simpa [hx] using of_decide_eq_true hy)
      rw [show stableSort lt (x :: xs) = stableInsert lt x (stableSort lt xs)
        from rfl] at this ⊢
      rw [this, ih]
      simp [hx]
    · have : (stableInsert lt x (stableSort lt xs)).filter
          (fun a => decide (key a = k))
          = (stableSort lt xs).filter (fun a => decide (key a = k)) :=
        filter_stableInsert_neg _ lt x (by simp [hx]) _
      rw [show stableSort lt (x :: xs) = stableInsert lt x (stableSort lt xs)
        from rfl, this, ih]
      simp [hx]

theorem stableInsert_map (f : α → α) (lt : α → α → Bool)
    (hlt : ∀ a b, lt (f a) (f b) = lt a b) (x : α) :
    ∀ l : List α,
      stableInsert lt (f x) (l.map f) = (stableInsert lt x l).map f := by
  intro l
  induction l with
  | nil => rfl
  | cons y ys ih =>
    by_cases h : lt y x = true <;> simp [stableInsert, hlt, h, ih]

theorem stableSort_map (f : α → α) (lt : α → α → Bool)
    (hlt : ∀ a b, lt (f a) (f b) = lt a b) :
    ∀ l : List α, stableSort lt (l.map f) = (stableSort lt l).map f := by
  intro l
  induction l with
  | nil => rfl
  | cons x xs ih => simp [stableSort, ih, stableInsert_map f lt hlt]

theorem filter_map_comm (f : α → α) (P : α → Bool)
    (hP : ∀ a, P (f a) = P a) (l : List α) :
    (l.map f).filter P = (l.filter P).map f := by
  rw [List.filter_map]
  congr 1
  exact List.filter_congr fun a _ => hP a

theorem length_filter_add_length_filter_not (l : List α) (p : α → Bool) :
    (l.filter p).length + (l.filter fun a => !(p a)).length = l.length := by
  induction l with
  | nil => rfl
  | cons x xs ih =>
    by_cases h : p x = true <;> simp [h, List.filter_cons] <;> omega

theorem mem_iff_mem_filter_or_filter_not (l : List α) (p : α → Bool)
    (x : α) :
    x ∈ l ↔ x ∈ l.filter p ∨ x ∈ l.filter fun a => !(p a) := by
  simp only [List.mem_filter]
  by_cases h : p x = true <;> simp [h]

theorem not_mem_filter_and_filter_not (l : List α) (p : α → Bool)
    (x : α) :
    ¬(x ∈ l.filter p ∧ x ∈ (l.filter fun a => !(p a))) := by
  simp only [List.mem_filter]
  rintro ⟨⟨-, h1⟩, -, h2⟩
  simp [h1] at h2

/-! ## Lemmas about the availability evaluator -/

theorem daysBetween_none_right (d t : String) (ht : parseDate t = none) :
    daysBetween d t = none := by
  unfold daysBetween
  rcases hd : parseDate d with _ | x <;> simp [ht]

theorem calc_scrub (p : Professor) (c : Int) (procs : List Procedure) :
    calculateConsecutiveParticipations { p with count := c } procs
      = calculateConsecutiveParticipations p procs := rfl

theorem isAvail_cooldown (p : Professor) (t : String)
    (req : JuryRequirements) (procs : List Procedure) (d : String)
    (g : Nat) (hd : p.lastDate = some d) (hg : daysBetween d t = some g)
    (hlt : g < req.minDaysBetweenParticipations) :
    isProfessorAvailable p t req procs =
      ⟨p, false, some (cooldownMsg g req.minDaysBetweenParticipations),
        some d, 0⟩ := by
  simp [isProfessorAvailable, hd, hg, hlt]

theorem isAvail_noCooldown (p : Professor) (t : String)
    (req : JuryRequirements) (procs : List Procedure)
    (h : cooldownFires p t req = false) :
    isProfessorAvailable p t req procs =
      if req.maxConsecutiveParticipations ≤
          calculateConsecutiveParticipations p procs then
        ⟨p, false,
          some (streakMsg (calculateConsecutiveParticipations p procs)
            req.maxConsecutiveParticipations),
          p.lastDate, calculateConsecutiveParticipations p procs⟩
      else
        ⟨p, true, none, p.lastDate,
          calculateConsecutiveParticipations p procs⟩ := by
  rcases hd : p.lastDate with _ | d
  · simp [isProfessorAvailable, hd]
  · rcases hg : daysBetween d t with _ | g
    · simp [isProfessorAvailable, hd, hg]
    · have hnl : ¬ g < req.minDaysBetweenParticipations := by
        simpa [cooldownFires, hd, hg, jsLtNat] using h
      simp [isProfessorAvailable, hd, hg, hnl]

theorem cooldownFires_iff (p : Professor) (t : String)
    (req : JuryRequirements) :
    cooldownFires p t req = true ↔
      ∃ d g, p.lastDate = some d ∧ daysBetween d t = some g ∧
        g < req.minDaysBetweenParticipations := by
  unfold cooldownFires
  rcases hd : p.lastDate with _ | d
  · simp
  · rcases hg : daysBetween d t with _ | g <;> simp [hg, jsLtNat]

theorem cooldownFires_false_of_target_none (p : Professor) (t : String)
    (req : JuryRequirements) (ht : parseDate t = none) :
    cooldownFires p t req = false := by
  unfold cooldownFires
  rcases hd : p.lastDate with _ | d
  · rfl
  · simp [daysBetween_none_right d t ht, jsLtNat]

theorem isAvail_scrub (p : Professor) (c : Int) (t : String)
    (req : JuryRequirements) (procs : List Procedure) :
    (isProfessorAvailable { p with count := c } t req procs).isAvailable
        = (isProfessorAvailable p t req procs).isAvailable
      ∧ (isProfessorAvailable { p with count := c } t req procs).reason
        = (isProfessorAvailable p t req procs).reason
      ∧ (isProfessorAvailable { p with count := c } t req procs).consecutiveCount
        = (isProfessorAvailable p t req procs).consecutiveCount := by
  obtain ⟨i, ti, na, sc, un, k, cnt, pre, last⟩ := p
  have hcal : calculateConsecutiveParticipations
      ⟨i, ti, na, sc, un, k, c, pre, last⟩ procs
      = calculateConsecutiveParticipations
        ⟨i, ti, na, sc, un, k, cnt, pre, last⟩ procs := rfl
  rcases last with _ | d
  · by_cases hm : req.maxConsecutiveParticipations ≤
        calculateConsecutiveParticipations
          ⟨i, ti, na, sc, un, k, cnt, pre, none⟩ procs <;>
      simp [isProfessorAvailable, hcal, hm]
  · rcases hg : daysBetween d t with _ | g
    · by_cases hm : req.maxConsecutiveParticipations ≤
          calculateConsecutiveParticipations
            ⟨i, ti, na, sc, un, k, cnt, pre, some d⟩ procs <;>
        simp [isProfessorAvailable, hg, hcal, hm]
    · by_cases hlt : g < req.minDaysBetweenParticipations
      · simp [isProfessorAvailable, hg, hlt]
      · by_cases hm : req.maxConsecutiveParticipations ≤
            calculateConsecutiveParticipations
              ⟨i, ti, na, sc, un, k, cnt, pre, some d⟩ procs <;>
          simp [isProfessorAvailable, hg, hlt, hcal, hm]

theorem isAvail_professor (p : Professor) (t : String)
    (req : JuryRequirements) (procs : List Procedure) :
    (isProfessorAvailable p t req procs).professor = p := by
  rcases hd : p.lastDate with _ | d
  · by_cases hm : req.maxConsecutiveParticipations ≤
        calculateConsecutiveParticipations p procs <;>
      simp [isProfessorAvailable, hd, hm]
  · rcases hg : daysBetween d t with _ | g
    · by_cases hm : req.maxConsecutiveParticipations ≤
          calculateConsecutiveParticipations p procs <;>
        simp [isProfessorAvailable, hd, hg, hm]
    · by_cases hlt : g < req.minDaysBetweenParticipations
      · simp [isProfessorAvailable, hd, hg, hlt]
      · by_cases hm : req.maxConsecutiveParticipations ≤
            calculateConsecutiveParticipations p procs <;>
          simp [isProfessorAvailable, hd, hg, hlt, hm]

/-- The eligible pool of the allocator is a plain filter of the input
professors by the availability verdict. -/
theorem eligible_eq_filter (ps : List Professor) (t : String)
    (req : JuryRequirements) (procs : List Procedure) :
    ((getAvailableProfessors ps t req procs none).filter
        (fun av => av.isAvailable)).map (fun av => av.professor)
      = ps.filter fun p => (isProfessorAvailable p t req procs).isAvailable := by
  unfold getAvailableProfessors
  rw [List.filter_map, List.map_map]
  have : ∀ p ∈ ps.filter (fun p =>
      ((fun av : ProfessorAvailability => av.isAvailable) ∘
        (fun professor => isProfessorAvailable professor t req procs)) p),
      ((fun av : ProfessorAvailability => av.professor) ∘
        (fun professor => isProfessorAvailable professor t req procs)) p
        = id p := by
    intro p _
    simpa using isAvail_professor p t req procs
  rw [List.map_congr_left this, List.map_id]
  rfl

/-! ## Lemmas about the allocator's output record -/

theorem composeFromPool_professors (pool : List Professor)
    (req : JuryRequirements) (home : String) :
    (composeFromPool pool req home).professors
      = (sortProfessors (pool.filter fun p => p.title == "професор")
          .distance true).take req.professorCount := rfl

theorem composeFromPool_associates (pool : List Professor)
    (req : JuryRequirements) (home : String) :
    (composeFromPool pool req home).associateProfessors
      = (sortProfessors (pool.filter fun p => p.title == "доцент")
          .distance true).take req.associateProfessorCount := rfl

theorem composeFromPool_allMembers (pool : List Professor)
    (req : JuryRequirements) (home : String) :
    (composeFromPool pool req home).allMembers
      = (composeFromPool pool req home).professors
        ++ (composeFromPool pool req home).associateProfessors := rfl

theorem composeFromPool_internal (pool : List Professor)
    (req : JuryRequirements) (home : String) :
    (composeFromPool pool req home).internalMembers
      = (composeFromPool pool req home).allMembers.filter
          (fun p => p.university == home) := rfl

theorem composeFromPool_external (pool : List Professor)
    (req : JuryRequirements) (home : String) :
    (composeFromPool pool req home).externalMembers
      = (composeFromPool pool req home).allMembers.filter
          (fun p => p.university != home) := rfl

theorem composeFromPool_errors (pool : List Professor)
    (req : JuryRequirements) (home : String) :
    (composeFromPool pool req home).errors
      = (if (pool.filter fun p => p.title == "професор").length <
            req.professorCount then
          [insufficientProfessorsMsg
            (pool.filter fun p => p.title == "професор").length
            req.professorCount]
        else []) ++
        (if (pool.filter fun p => p.title == "доцент").length <
            req.associateProfessorCount then
          [insufficientAssociateProfessorsMsg
            (pool.filter fun p => p.title == "доцент").length
            req.associateProfessorCount]
        else []) := rfl

theorem createJuryComposition_eq (ps : List Professor)
    (procs : List Procedure) (t : String) (req : JuryRequirements)
    (home : String) :
    createJuryComposition ps procs t req home
      = composeFromPool
          (ps.filter fun p => (isProfessorAvailable p t req procs).isAvailable)
          req home := by
  unfold createJuryComposition
  rw [eligible_eq_filter]

/-! ## Lemmas about the diagnostic strings -/

theorem strContains_middle (a b c : String) :
    strContains (a ++ (b ++ c)) b :=
  ⟨a.data, c.data, by simp [String.data_append]⟩

theorem cooldownMsg_contains_gap (g m : Nat) :
    strContains (cooldownMsg g m) (toString g) := by
  unfold cooldownMsg
  exact ⟨"Last participation was ".data,
    (" days ago (minimum: " ++ (toString m ++ ")")).data,
    by simp [String.data_append]⟩

theorem cooldownMsg_contains_min (g m : Nat) :
    strContains (cooldownMsg g m) (toString m) := by
  unfold cooldownMsg
  exact ⟨("Last participation was " ++ (toString g ++
      " days ago (minimum: ")).data, ")".data,
    by simp [String.data_append]⟩

theorem streakMsg_contains_streak (s m : Nat) :
    strContains (streakMsg s m) (toString s) := by
  unfold streakMsg
  exact ⟨"Maximum consecutive participations reached (".data,
    ("/" ++ (toString m ++ ")")).data, by simp [String.data_append]⟩

theorem streakMsg_contains_cap (s m : Nat) :
    strContains (streakMsg s m) (toString m) := by
  unfold streakMsg
  exact ⟨("Maximum consecutive participations reached (" ++
      (toString s ++ "/")).data, ")".data, by simp [String.data_append]⟩

theorem profMsg_ne_assocMsg (a b c d : Nat) :
    insufficientProfessorsMsg a b ≠ insufficientAssociateProfessorsMsg c d := by
  intro h
  have h2 := congrArg (fun s : String => s.data.take 14) h
  simp only [insufficientProfessorsMsg, insufficientAssociateProfessorsMsg,
    String.data_append] at h2
  rw [List.take_append_of_le_length (by decide),
    List.take_append_of_le_length (by decide)] at h2
  exact absurd h2 (by decide)

/-! ## The backward walk of the streak counter equals the spec's
suffix-chain count -/

theorem consecSteps_spec (parts : List Procedure) :
    ∀ i : Nat, i < parts.length →
      1 + consecSteps parts i
        = recentChainLength ((parts.take (i + 1)).reverse) := by
  intro i
  induction i with
  | zero =>
    intro h
    match parts, h with
    | p :: rest, _ => rfl
  | succ i ih =>
    intro h
    have hi : i < parts.length := Nat.lt_of_succ_lt h
    have e2 : parts.take (i + 2) = parts.take (i + 1) ++ [parts[i + 1]] := by
      rw [List.take_succ, List.getElem?_eq_getElem h]
      rfl
    have e1 : parts.take (i + 1) = parts.take i ++ [parts[i]] := by
      rw [List.take_succ, List.getElem?_eq_getElem hi]
      rfl
    have hrev : (parts.take (i + 2)).reverse
        = parts[i + 1] :: parts[i] :: (parts.take i).reverse := by
      rw [e2, List.reverse_append, e1, List.reverse_append]
      simp
    rw [hrev]
    have g1 : parts.getD i emptyProcedure = parts[i] :=
      List.getD_eq_getElem parts emptyProcedure hi
    have g2 : parts.getD (i + 1) emptyProcedure = parts[i + 1] :=
      List.getD_eq_getElem parts emptyProcedure h
    have hstep : consecSteps parts (i + 1)
        = if jsGtNat30 (daysBetween parts[i].date parts[i + 1].date) then 0
          else 1 + consecSteps parts i := by
      rw [show consecSteps parts (i + 1)
          = if jsGtNat30 (daysBetween (parts.getD i emptyProcedure).date
              (parts.getD (i + 1) emptyProcedure).date) then 0
            else 1 + consecSteps parts i from rfl,
        g1, g2]
    cases hgap : jsGtNat30 (daysBetween parts[i].date parts[i + 1].date) with
    | true => simp [hstep, hgap, recentChainLength]
    | false =>
      have ihv := ih hi
      rw [e1] at ihv
      simp only [List.reverse_append, List.reverse_cons,
        List.reverse_nil, List.nil_append, List.singleton_append] at ihv
      simp [hstep, hgap, recentChainLength, ← ihv]

/-! ## Scrub commutation through the allocator pipeline -/

theorem profBefore_distance_scrub (a b : Professor) :
    profBefore .distance true (scrubCount a) (scrubCount b)
      = profBefore .distance true a b := rfl

theorem sortProfessors_distance_scrub (l : List Professor) :
    sortProfessors (l.map scrubCount) .distance true
      = (sortProfessors l .distance true).map scrubCount :=
  stableSort_map scrubCount (profBefore .distance true)
    profBefore_distance_scrub l

theorem composeFromPool_scrub_allMembers (pool : List Professor)
    (req : JuryRequirements) (home : String) :
    (composeFromPool (pool.map scrubCount) req home).allMembers
      = ((composeFromPool pool req home).allMembers).map scrubCount := by
  rw [composeFromPool_allMembers, composeFromPool_allMembers,
    composeFromPool_professors, composeFromPool_professors,
    composeFromPool_associates, composeFromPool_associates]
  rw [filter_map_comm scrubCount (fun p => p.title == "професор")
      (fun a => rfl) pool,
    filter_map_comm scrubCount (fun p => p.title == "доцент")
      (fun a => rfl) pool,
    sortProfessors_distance_scrub, sortProfessors_distance_scrub]
  simp [List.map_take, List.map_append]

theorem keyLt_self (k : SortKey) : keyLt k k = false := by
  rcases k with q | o | s
  · simp [keyLt]
  · rcases o with _ | x <;> simp [keyLt]
  · simp [keyLt]

theorem profBefore_eq_key_false (c : ProfessorSortCriteria) (asc : Bool)
    (a b : Professor) (h : sortKey c a = sortKey c b) :
    profBefore c asc a b = false := by
  cases asc <;> simp [profBefore, h, keyLt_self]

/-- The six invariants of the allocator record, stated over
`composeFromPool` so that claims about `createJuryComposition` can
reuse them. -/
theorem composeFromPool_invariants (pool : List Professor)
    (req : JuryRequirements) (home : String) :
    (composeFromPool pool req home).allMembers
        = (composeFromPool pool req home).professors
          ++ (composeFromPool pool req home).associateProfessors
      ∧ (composeFromPool pool req home).internalMembers.length
          + (composeFromPool pool req home).externalMembers.length
        = (composeFromPool pool req home).allMembers.length
      ∧ (∀ p, p ∈ (composeFromPool pool req home).allMembers ↔
          p ∈ (composeFromPool pool req home).internalMembers
          ∨ p ∈ (composeFromPool pool req home).externalMembers)
      ∧ (∀ p, ¬(p ∈ (composeFromPool pool req home).internalMembers
          ∧ p ∈ (composeFromPool pool req home).externalMembers))
      ∧ (composeFromPool pool req home).professors.length
          ≤ req.professorCount
      ∧ (composeFromPool pool req home).associateProfessors.length
          ≤ req.associateProfessorCount := by
  refine ⟨composeFromPool_allMembers pool req home, ?_, ?_, ?_, ?_, ?_⟩
  · rw [composeFromPool_internal, composeFromPool_external]
    have := length_filter_add_length_filter_not
      (composeFromPool pool req home).allMembers
      (fun p => p.university == home)
    simpa [bne] using this
  · intro p
    rw [composeFromPool_internal, composeFromPool_external]
    have := mem_iff_mem_filter_or_filter_not
      (composeFromPool pool req home).allMembers
      (fun p => p.university == home) p
    simpa [bne] using this
  · intro p
    rw [composeFromPool_internal, composeFromPool_external]
    have := not_mem_filter_and_filter_not
      (composeFromPool pool req home).allMembers
      (fun p => p.university == home) p
    simpa [bne] using this
  · rw [composeFromPool_professors]
    simp [List.length_take]
  · rw [composeFromPool_associates]
    simp [List.length_take]

theorem length_sortProfessors (l : List Professor)
    (c : ProfessorSortCriteria) (asc : Bool) :
    (sortProfessors l c asc).length = l.length :=
  length_stableSort (profBefore c asc) l

/-- Shortfall-error characterisation over `composeFromPool`. -/
theorem composeFromPool_shortfall (pool : List Professor)
    (req : JuryRequirements) (home : String) :
    (insufficientProfessorsMsg
        (composeFromPool pool req home).professors.length
        req.professorCount ∈ (composeFromPool pool req home).errors
      ↔ (composeFromPool pool req home).professors.length
        < req.professorCount)
    ∧ (insufficientAssociateProfessorsMsg
        (composeFromPool pool req home).associateProfessors.length
        req.associateProfessorCount ∈ (composeFromPool pool req home).errors
      ↔ (composeFromPool pool req home).associateProfessors.length
        < req.associateProfessorCount) := by
  have hlenP : (composeFromPool pool req home).professors.length
      = min req.professorCount
        (pool.filter fun p => p.title == "професор").length := by
    rw [composeFromPool_professors]
    simp [List.length_take, length_sortProfessors]
  have hlenA : (composeFromPool pool req home).associateProfessors.length
      = min req.associateProfessorCount
        (pool.filter fun p => p.title == "доцент").length := by
    rw [composeFromPool_associates]
    simp [List.length_take, length_sortProfessors]
  constructor
  · by_cases hn : (pool.filter fun p => p.title == "професор").length
        < req.professorCount
    · have hmin : min req.professorCount
          (pool.filter fun p => p.title == "професор").length
          = (pool.filter fun p => p.title == "професор").length :=
        Nat.min_eq_right (Nat.le_of_lt hn)
      rw [hlenP, hmin, composeFromPool_errors, if_pos hn]
      simp [hn]
    · have hmin : min req.professorCount
          (pool.filter fun p => p.title == "професор").length
          = req.professorCount :=
        Nat.min_eq_left (Nat.le_of_not_lt hn)
      rw [hlenP, hmin, composeFromPool_errors, if_neg hn]
      simp only [List.nil_append, Nat.lt_irrefl, iff_false]
      intro hmem
      split at hmem
      · exact profMsg_ne_assocMsg _ _ _ _ (List.mem_singleton.mp hmem)
      · simp at hmem
  · by_cases hn : (pool.filter fun p => p.title == "доцент").length
        < req.associateProfessorCount
    · have hmin : min req.associateProfessorCount
          (pool.filter fun p => p.title == "доцент").length
          = (pool.filter fun p => p.title == "доцент").length :=
        Nat.min_eq_right (Nat.le_of_lt hn)
      rw [hlenA, hmin, composeFromPool_errors, if_pos hn]
      simp [hn]
    · have hmin : min req.associateProfessorCount
          (pool.filter fun p => p.title == "доцент").length
          = req.associateProfessorCount :=
        Nat.min_eq_left (Nat.le_of_not_lt hn)
      rw [hlenA, hmin, composeFromPool_errors, if_neg hn]
      simp only [List.append_nil, Nat.lt_irrefl, iff_false]
      intro hmem
      split at hmem
      · exact (profMsg_ne_assocMsg _ _ _ _).symm
          ((List.mem_singleton.mp hmem))
      · simp at hmem

/-! ## The claims -/

/-- C1: for every list of professors, procedures, target date,
requirements and home affiliation, the `JuryComposition` returned by
`createJuryComposition` satisfies: `allMembers` is the selected
professors followed by the selected associate professors; the internal
and external members partition `allMembers` (lengths add up, every
member lands in exactly one side, none in both); and each selected
rank list is bounded by its quota. -/
theorem createJuryComposition_invariants (ps : List Professor)
    (procs : List Procedure) (t : String) (req : JuryRequirements)
    (home : String) :
    (createJuryComposition ps procs t req home).allMembers
        = (createJuryComposition ps procs t req home).professors
          ++ (createJuryComposition ps procs t req home).associateProfessors
      ∧ (createJuryComposition ps procs t req home).internalMembers.length
          + (createJuryComposition ps procs t req home).externalMembers.length
        = (createJuryComposition ps procs t req home).allMembers.length
      ∧ (∀ p, p ∈ (createJuryComposition ps procs t req home).allMembers ↔
          p ∈ (createJuryComposition ps procs t req home).internalMembers
          ∨ p ∈ (createJuryComposition ps procs t req home).externalMembers)
      ∧ (∀ p, ¬(p ∈ (createJuryComposition ps procs t req home).internalMembers
          ∧ p ∈ (createJuryComposition ps procs t req home).externalMembers))
      ∧ (createJuryComposition ps procs t req home).professors.length
          ≤ req.professorCount
      ∧ (createJuryComposition ps procs t req home).associateProfessors.length
          ≤ req.associateProfessorCount := by
  rw [createJuryComposition_eq]
  exact composeFromPool_invariants _ req home

theorem createJuryComposition_invariants_witness :
    (createJuryComposition [profRecent, profFresh] [procJune] "2024-03-01"
        DEFAULT_JURY_REQUIREMENTS "Софийски университет").professors.length ≤ 3
      ∧ (createJuryComposition [profRecent, profFresh] [procJune] "2024-03-01"
          DEFAULT_JURY_REQUIREMENTS "Софийски университет").allMembers
        = (createJuryComposition [profRecent, profFresh] [procJune] "2024-03-01"
            DEFAULT_JURY_REQUIREMENTS "Софийски университет").professors
          ++ (createJuryComposition [profRecent, profFresh] [procJune]
              "2024-03-01" DEFAULT_JURY_REQUIREMENTS
              "Софийски университет").associateProfessors := by
  have h := createJuryComposition_invariants [profRecent, profFresh]
    [procJune] "2024-03-01" DEFAULT_JURY_REQUIREMENTS "Софийски университет"
  exact ⟨h.2.2.2.2.1, h.1⟩

/-- C3: `calculateConsecutiveParticipations` returns 0 on an empty
history, and in general equals the suffix-chain count of the
most-recent-first history described by the spec (adjacent gaps of at
most the fixed 30 days, stopping at the first larger gap).  The
function takes no `JuryRequirements` argument, so the threshold cannot
depend on `minDaysBetweenParticipations`. -/
theorem calculateConsecutiveParticipations_spec (p : Professor)
    (procs : List Procedure) :
    (getProfessorParticipationHistory p procs = [] →
      calculateConsecutiveParticipations p procs = 0)
    ∧ calculateConsecutiveParticipations p procs
      = recentChainLength (getProfessorParticipationHistory p procs).reverse := by
  constructor
  · intro h
    unfold calculateConsecutiveParticipations
    simp [h]
  · unfold calculateConsecutiveParticipations
    rcases hh : getProfessorParticipationHistory p procs with _ | ⟨q, rest⟩
    · simp [recentChainLength]
    · have hlen : ¬ ((q :: rest).length == 0) = true := by simp
      simp only [hlen, if_false, List.length_cons, Nat.add_sub_cancel]
      have hspec := consecSteps_spec (q :: rest) rest.length
        (by simp)
      rw [show rest.length + 1 = (q :: rest).length from by simp,
        List.take_length] at hspec
      exact hspec

theorem calculateConsecutiveParticipations_spec_witness :
    calculateConsecutiveParticipations profRecent [procJune, procMay]
      = recentChainLength
        (getProfessorParticipationHistory profRecent
          [procJune, procMay]).reverse
    ∧ calculateConsecutiveParticipations profRecent [procJune, procMay] = 2 := by
  refine ⟨(calculateConsecutiveParticipations_spec profRecent
    [procJune, procMay]).2, by decide⟩

/-- C5 counterexample: `daysBetween` does not fail on an unparseable
input — it returns the `NaN` value (modelled `none`), and the
availability evaluator consumes that value and keeps going, returning
a normal verdict. -/
theorem daysBetween_no_failure_counterexample :
    daysBetween "not-a-date" "2024-01-01" = none
    ∧ (isProfessorAvailable
        ⟨1, "професор", "A", 47/10, "U", 0, 0, none, some "not-a-date"⟩
        "2024-01-01" DEFAULT_JURY_REQUIREMENTS []).isAvailable = true := by
  decide

/-- C5 (amended): `daysBetween` is total.  When either input fails to
parse it returns the JavaScript `NaN` (modelled `none`) instead of
failing; when both parse it returns the absolute integer number of
calendar days between them (ISO date-only inputs parse to UTC
midnights, so the source's `Math.ceil` never rounds). -/
theorem daysBetween_total (a b : String) :
    ((parseDate a = none ∨ parseDate b = none) → daysBetween a b = none)
    ∧ (∀ x y, parseDate a = some x → parseDate b = some y →
        daysBetween a b = some (y - x).natAbs) := by
  rcases ha : parseDate a with _ | x <;> rcases hb : parseDate b with _ | y <;>
    constructor <;> simp [daysBetween, ha, hb]

theorem daysBetween_total_witness :
    daysBetween "2023-06-20" "2023-07-10" = some 20 := by
  have h := (daysBetween_total "2023-06-20" "2023-07-10").2 19528 19548
    (by decide) (by decide)
  simpa using h

/-- C6: `sortProfessors` is stable and `ascending = false` negates the
comparator rather than reversing the output: for every input, every
criterion, both directions, and every key value, the elements of one
tie group appear in the output in their original input order. -/
theorem sortProfessors_stable_ties (ps : List Professor)
    (c : ProfessorSortCriteria) (asc : Bool) (k : SortKey) :
    (sortProfessors ps c asc).filter (fun p => decide (sortKey c p = k))
      = ps.filter (fun p => decide (sortKey c p = k)) :=
  stableSort_filter_key (sortKey c) (profBefore c asc)
    (profBefore_eq_key_false c asc) k ps

theorem sortProfessors_stable_ties_witness :
    (sortProfessors [profRecent, profFresh] .scienceRating false).filter
        (fun p => decide (sortKey .scienceRating p = .num (47/10)))
      = [profRecent, profFresh].filter
        (fun p => decide (sortKey .scienceRating p = .num (47/10))) :=
  sortProfessors_stable_ties [profRecent, profFresh] .scienceRating false
    (.num (47/10))

/-- C2: the availability decision is taken in a fixed order with the
first matching rule winning: a live cooldown rejects with a reason
carrying the actual gap and the required minimum; otherwise a streak at
or above the cap rejects with a reason carrying the streak and the cap;
otherwise the professor is available with no reason.  In particular
`lastDate = "2023-06-20"`, `targetDate = "2023-07-10"` and a 30-day
minimum reject with a reason containing "20" and "30". -/
theorem isProfessorAvailable_decision_order (p : Professor) (t : String)
    (req : JuryRequirements) (procs : List Procedure) :
    (∀ d g, p.lastDate = some d → daysBetween d t = some g →
      g < req.minDaysBetweenParticipations →
      (isProfessorAvailable p t req procs).isAvailable = false
      ∧ (isProfessorAvailable p t req procs).reason
        = some (cooldownMsg g req.minDaysBetweenParticipations)
      ∧ strContains (cooldownMsg g req.minDaysBetweenParticipations)
        (toString g)
      ∧ strContains (cooldownMsg g req.minDaysBetweenParticipations)
        (toString req.minDaysBetweenParticipations))
    ∧ (cooldownFires p t req = false →
      req.maxConsecutiveParticipations
        ≤ calculateConsecutiveParticipations p procs →
      (isProfessorAvailable p t req procs).isAvailable = false
      ∧ (isProfessorAvailable p t req procs).reason
        = some (streakMsg (calculateConsecutiveParticipations p procs)
            req.maxConsecutiveParticipations)
      ∧ strContains (streakMsg (calculateConsecutiveParticipations p procs)
            req.maxConsecutiveParticipations)
          (toString (calculateConsecutiveParticipations p procs))
      ∧ strContains (streakMsg (calculateConsecutiveParticipations p procs)
            req.maxConsecutiveParticipations)
          (toString req.maxConsecutiveParticipations))
    ∧ (cooldownFires p t req = false →
      calculateConsecutiveParticipations p procs
        < req.maxConsecutiveParticipations →
      (isProfessorAvailable p t req procs).isAvailable = true
      ∧ (isProfessorAvailable p t req procs).reason = none)
    ∧ (p.lastDate = some "2023-06-20" → t = "2023-07-10" →
      req.minDaysBetweenParticipations = 30 →
      (isProfessorAvailable p t req procs).isAvailable = false
      ∧ ∃ r, (isProfessorAvailable p t req procs).reason = some r
        ∧ strContains r "20" ∧ strContains r "30") := by
  refine ⟨?_, ?_, ?_, ?_⟩
  · intro d g hd hg hlt
    rw [isAvail_cooldown p t req procs d g hd hg hlt]
    exact ⟨rfl, rfl, cooldownMsg_contains_gap g _,
      cooldownMsg_contains_min g _⟩
  · intro h hm
    rw [isAvail_noCooldown p t req procs h, if_pos hm]
    exact ⟨rfl, rfl, streakMsg_contains_streak _ _,
      streakMsg_contains_cap _ _⟩
  · intro h hm
    rw [isAvail_noCooldown p t req procs h, if_neg (Nat.not_le.mpr hm)]
    exact ⟨rfl, rfl⟩
  · intro hd ht hmin
    subst ht
    rcases req with ⟨pc, ac, mc, mind, mdist⟩
    simp only at hmin
    subst hmin
    have hg : daysBetween "2023-06-20" "2023-07-10" = some 20 := by decide
    rw [isAvail_cooldown p "2023-07-10" ⟨pc, ac, mc, 30, mdist⟩ procs
      "2023-06-20" 20 hd hg (by simp)]
    exact ⟨rfl, cooldownMsg 20 30, rfl, by decide, by decide⟩

theorem isProfessorAvailable_decision_order_witness :
    (isProfessorAvailable profRecent "2023-07-10"
        DEFAULT_JURY_REQUIREMENTS []).isAvailable = false
    ∧ ∃ r, (isProfessorAvailable profRecent "2023-07-10"
        DEFAULT_JURY_REQUIREMENTS []).reason = some r
      ∧ strContains r "20" ∧ strContains r "30" :=
  (isProfessorAvailable_decision_order profRecent "2023-07-10"
    DEFAULT_JURY_REQUIREMENTS []).2.2.2 rfl rfl rfl

/-- C4: for each rank, `createJuryComposition` reports the
"insufficient" error (citing the selected and required counts) exactly
when the selected count of that rank is strictly below the quota; and
in the 1-eligible-professor / quota-3 scenario it selects exactly one
professor and reports "1/3". -/
theorem createJuryComposition_shortfall (ps : List Professor)
    (procs : List Procedure) (t : String) (req : JuryRequirements)
    (home : String) :
    (insufficientProfessorsMsg
        (createJuryComposition ps procs t req home).professors.length
        req.professorCount ∈ (createJuryComposition ps procs t req home).errors
      ↔ (createJuryComposition ps procs t req home).professors.length
        < req.professorCount)
    ∧ (insufficientAssociateProfessorsMsg
        (createJuryComposition ps procs t req home).associateProfessors.length
        req.associateProfessorCount
        ∈ (createJuryComposition ps procs t req home).errors
      ↔ (createJuryComposition ps procs t req home).associateProfessors.length
        < req.associateProfessorCount)
    ∧ (createJuryComposition [profFresh] [] "2024-03-01"
        DEFAULT_JURY_REQUIREMENTS "Софийски университет").professors.length = 1
    ∧ insufficientProfessorsMsg 1 3 ∈ (createJuryComposition [profFresh] []
        "2024-03-01" DEFAULT_JURY_REQUIREMENTS "Софийски университет").errors := by
  refine ⟨?_, ?_, by decide, by decide⟩
  · rw [createJuryComposition_eq]
    exact (composeFromPool_shortfall _ req home).1
  · rw [createJuryComposition_eq]
    exact (composeFromPool_shortfall _ req home).2

theorem createJuryComposition_shortfall_witness :
    insufficientProfessorsMsg
        (createJuryComposition [profFresh] [] "2024-03-01"
          DEFAULT_JURY_REQUIREMENTS "Софийски университет").professors.length
        DEFAULT_JURY_REQUIREMENTS.professorCount
        ∈ (createJuryComposition [profFresh] [] "2024-03-01"
          DEFAULT_JURY_REQUIREMENTS "Софийски университет").errors
      ↔ (createJuryComposition [profFresh] [] "2024-03-01"
          DEFAULT_JURY_REQUIREMENTS "Софийски университет").professors.length
        < DEFAULT_JURY_REQUIREMENTS.professorCount :=
  (createJuryComposition_shortfall [profFresh] [] "2024-03-01"
    DEFAULT_JURY_REQUIREMENTS "Софийски университет").1

/-- C7 counterexample: a professor rejected by the cooldown rule whose
recomputed streak is 1 gets `consecutiveCount = 0` in the returned
record, so the field does not carry the computed streak in every
branch. -/
theorem consecutiveCount_cooldown_counterexample :
    (isProfessorAvailable profRecent "2023-07-10" DEFAULT_JURY_REQUIREMENTS
        [procJune]).consecutiveCount = 0
    ∧ calculateConsecutiveParticipations profRecent [procJune] = 1 := by
  decide

/-- C7 (amended): the returned `consecutiveCount` equals the computed
streak in the streak-rejection and available branches; in the
cooldown-rejection branch the source writes the literal `0` (the
streak is not computed there). -/
theorem consecutiveCount_field (p : Professor) (t : String)
    (req : JuryRequirements) (procs : List Procedure) :
    (cooldownFires p t req = false →
      (isProfessorAvailable p t req procs).consecutiveCount
        = calculateConsecutiveParticipations p procs)
    ∧ (cooldownFires p t req = true →
      (isProfessorAvailable p t req procs).consecutiveCount = 0) := by
  constructor
  · intro h
    rw [isAvail_noCooldown p t req procs h]
    by_cases hm : req.maxConsecutiveParticipations ≤
        calculateConsecutiveParticipations p procs <;> simp [hm]
  · intro h
    obtain ⟨d, g, hd, hg, hlt⟩ := (cooldownFires_iff p t req).mp h
    rw [isAvail_cooldown p t req procs d g hd hg hlt]

theorem consecutiveCount_field_witness :
    (isProfessorAvailable profFresh "2024-03-01" DEFAULT_JURY_REQUIREMENTS
        [procJune]).consecutiveCount
      = calculateConsecutiveParticipations profFresh [procJune] :=
  (consecutiveCount_field profFresh "2024-03-01" DEFAULT_JURY_REQUIREMENTS
    [procJune]).1 rfl

/-- C8: noninterference on `Professor.count`.  Changing only the
lifetime counter changes neither the availability verdict, reason or
streak, nor the ids (in order) of the members `createJuryComposition`
selects: the evaluator and allocator never read `count`. -/
theorem count_noninterference :
    (∀ (p : Professor) (c : Int) (t : String) (req : JuryRequirements)
        (procs : List Procedure),
      (isProfessorAvailable { p with count := c } t req procs).isAvailable
          = (isProfessorAvailable p t req procs).isAvailable
        ∧ (isProfessorAvailable { p with count := c } t req procs).reason
          = (isProfessorAvailable p t req procs).reason
        ∧ (isProfessorAvailable { p with count := c } t req procs).consecutiveCount
          = (isProfessorAvailable p t req procs).consecutiveCount)
    ∧ (∀ (ps qs : List Professor) (procs : List Procedure) (t : String)
        (req : JuryRequirements) (home : String),
      ps.map scrubCount = qs.map scrubCount →
      (createJuryComposition ps procs t req home).allMembers.map
          (fun p => p.id)
        = (createJuryComposition qs procs t req home).allMembers.map
          (fun p => p.id)) := by
  constructor
  · exact fun p c t req procs => isAvail_scrub p c t req procs
  · intro ps qs procs t req home h
    rw [createJuryComposition_eq, createJuryComposition_eq]
    have hscrub : ∀ a : Professor,
        (isProfessorAvailable (scrubCount a) t req procs).isAvailable
          = (isProfessorAvailable a t req procs).isAvailable :=
      fun a => (isAvail_scrub a 0 t req procs).1
    have key :
        ((composeFromPool (ps.filter fun p =>
            (isProfessorAvailable p t req procs).isAvailable) req
            home).allMembers).map scrubCount
        = ((composeFromPool (qs.filter fun p =>
            (isProfessorAvailable p t req procs).isAvailable) req
            home).allMembers).map scrubCount := by
      rw [← composeFromPool_scrub_allMembers, ← composeFromPool_scrub_allMembers,
        ← filter_map_comm scrubCount
          (fun p => (isProfessorAvailable p t req procs).isAvailable) hscrub ps,
        ← filter_map_comm scrubCount
          (fun p => (isProfessorAvailable p t req procs).isAvailable) hscrub qs,
        h]
    have idmap : ∀ l : List Professor,
        (l.map scrubCount).map (fun p => p.id) = l.map (fun p => p.id) := by
      intro l
      rw [List.map_map]
      rfl
    rw [← idmap, key, idmap]

theorem count_noninterference_witness :
    (createJuryComposition [profRecent, profFresh] [procJune] "2024-03-01"
        DEFAULT_JURY_REQUIREMENTS "Софийски университет").allMembers.map
        (fun p => p.id)
      = (createJuryComposition
          [{ profRecent with count := 99 }, { profFresh with count := 7 }]
          [procJune] "2024-03-01" DEFAULT_JURY_REQUIREMENTS
          "Софийски университет").allMembers.map (fun p => p.id) :=
  (count_noninterference).2 [profRecent, profFresh]
    [{ profRecent with count := 99 }, { profFresh with count := 7 }]
    [procJune] "2024-03-01" DEFAULT_JURY_REQUIREMENTS "Софийски университет"
    rfl

/-- C9 counterexample: the source guards the year restriction with
JavaScript truthiness (`if (year)`), so the supplied year `0` is
treated as "no year" and `participationsThisYear` falls back to the
total instead of the count of year-0 entries. -/
theorem workload_year_zero_counterexample :
    (calculateProfessorWorkload profRecent [procJune]
        (some 0)).participationsThisYear = 1
    ∧ ((getProfessorParticipationHistory profRecent [procJune]).filter
        (fun proc => yearOf proc.date == some 0)).length = 0 := by
  decide

/-- C9 (amended): `calculateProfessorWorkload` returns the history
length as `totalParticipations`; `participationsThisYear` equals the
count of history entries of the supplied year when a nonzero year is
supplied, and the total when no year (or the falsy year 0) is
supplied; the average gap is 0 (a number, not `NaN`) for histories
shorter than 2; and `lastParticipationDate` is the most recent history
date, or empty when there is none. -/
theorem calculateProfessorWorkload_fields (p : Professor)
    (procs : List Procedure) (year : Option Nat) :
    (calculateProfessorWorkload p procs year).totalParticipations
        = (getProfessorParticipationHistory p procs).length
    ∧ (year = none ∨ year = some 0 →
        (calculateProfessorWorkload p procs year).participationsThisYear
          = (getProfessorParticipationHistory p procs).length)
    ∧ (∀ y, year = some y → y ≠ 0 →
        (calculateProfessorWorkload p procs year).participationsThisYear
          = ((getProfessorParticipationHistory p procs).filter
              (fun proc => yearOf proc.date == some y)).length)
    ∧ ((getProfessorParticipationHistory p procs).length < 2 →
        (calculateProfessorWorkload p procs
          year).averageDaysBetweenParticipations = some 0)
    ∧ (calculateProfessorWorkload p procs year).lastParticipationDate
        = ((getProfessorParticipationHistory p procs).getLast?).map
          (fun proc => proc.date) := by
  refine ⟨rfl, ?_, ?_, ?_, ?_⟩
  · rintro (h | h) <;> subst h <;>
      simp [calculateProfessorWorkload, jsTruthyYear]
  · intro y hy hy0
    subst hy
    simp [calculateProfessorWorkload, jsTruthyYear, hy0]
  · intro h
    have : ¬ 1 < (getProfessorParticipationHistory p procs).length := by
      omega
    simp [calculateProfessorWorkload, this]
  · rcases hh : getProfessorParticipationHistory p procs with _ | ⟨q, rest⟩
    · simp [calculateProfessorWorkload, hh]
    · have hlt : rest.length < (q :: rest).length := by simp
      simp only [calculateProfessorWorkload, hh, List.length_cons,
        Nat.add_sub_cancel, List.getLast?_eq_getElem?]
      rw [if_pos (Nat.succ_pos rest.length),
        List.getD_eq_getElem (q :: rest) emptyProcedure hlt,
        List.getElem?_eq_getElem hlt]
      rfl

theorem calculateProfessorWorkload_fields_witness :
    (calculateProfessorWorkload profRecent [procJune]
        (some 2023)).participationsThisYear
      = ((getProfessorParticipationHistory profRecent [procJune]).filter
          (fun proc => yearOf proc.date == some 2023)).length :=
  (calculateProfessorWorkload_fields profRecent [procJune]
    (some 2023)).2.2.1 2023 rfl (by decide)

/-- C10: the evaluator and the allocator are total on unparseable
dates.  An unparseable `targetDate` or `lastDate` makes `daysBetween`
yield `NaN` (modelled `none`); the cooldown comparison is then false,
so the cooldown rule silently never rejects and the call proceeds to
the streak check and returns a normal result — the allocator then
selects exactly from the streak-filtered pool. -/
theorem invalid_date_no_failure (ps : List Professor) (p : Professor)
    (t : String) (req : JuryRequirements) (procs : List Procedure)
    (home : String) :
    ((parseDate t = none ∨ (∃ d, p.lastDate = some d ∧ parseDate d = none)) →
      isProfessorAvailable p t req procs =
        if req.maxConsecutiveParticipations ≤
            calculateConsecutiveParticipations p procs then
          ⟨p, false,
            some (streakMsg (calculateConsecutiveParticipations p procs)
              req.maxConsecutiveParticipations),
            p.lastDate, calculateConsecutiveParticipations p procs⟩
        else
          ⟨p, true, none, p.lastDate,
            calculateConsecutiveParticipations p procs⟩)
    ∧ (parseDate t = none →
      createJuryComposition ps procs t req home
        = composeFromPool (ps.filter fun q =>
            decide (calculateConsecutiveParticipations q procs
              < req.maxConsecutiveParticipations)) req home) := by
  constructor
  · rintro (ht | ⟨d, hd, hdn⟩)
    · exact isAvail_noCooldown p t req procs
        (cooldownFires_false_of_target_none p t req ht)
    · refine isAvail_noCooldown p t req procs ?_
      unfold cooldownFires
      rw [hd]
      simp [daysBetween, hdn, jsLtNat]
  · intro ht
    rw [createJuryComposition_eq]
    congr 1
    refine List.filter_congr ?_
    intro q _
    rw [isAvail_noCooldown q t req procs
      (cooldownFires_false_of_target_none q t req ht)]
    by_cases hm : req.maxConsecutiveParticipations ≤
        calculateConsecutiveParticipations q procs
    · rw [if_pos hm]
      exact (decide_eq_false (Nat.not_lt.mpr hm)).symm
    · rw [if_neg hm]
      exact (decide_eq_true (Nat.not_le.mp hm)).symm

theorem invalid_date_no_failure_witness :
    createJuryComposition [profRecent, profFresh] [procJune] "bad-date"
        DEFAULT_JURY_REQUIREMENTS "Софийски университет"
      = composeFromPool ([profRecent, profFresh].filter fun q =>
          decide (calculateConsecutiveParticipations q [procJune]
            < DEFAULT_JURY_REQUIREMENTS.maxConsecutiveParticipations))
          DEFAULT_JURY_REQUIREMENTS "Софийски университет" :=
  (invalid_date_no_failure [profRecent, profFresh] profRecent "bad-date"
    DEFAULT_JURY_REQUIREMENTS [procJune] "Софийски университет").2
    (by decide)

end JustJury
